import Mathlib

/-!
Shallow embedding of the response-parsing core of `src/app.py`
(car-damage-analyzer): `parse_analysis`, `translate_severity`,
`extract_value`, `estimate_cost`, and the regular-expression matching
they perform, modelled character-by-character on `List Char`.

Python specifics that the model mirrors:
* `str.lower()` — modelled as ASCII lowercasing (`Char.toLower`); it
  agrees with Python on the ASCII and Persian alphabets that the
  program's vocabulary uses.
* `\s` — modelled as the six ASCII whitespace characters Python's `\s`
  always matches; the texts involved contain no exotic Unicode spaces.
* `re.search(p, t)` — leftmost match: the pattern is tried at every
  position of `t` from the left.  For the patterns of this program the
  tails after the leading literals always succeed without backtracking
  into the literals, so leftmost-literal search is exact.
* `re.findall` — repeated non-overlapping leftmost matching, resuming
  after the end of each match.
-/

namespace CarDamage

/-- Python `\s` (ASCII part): space, tab, newline, carriage return,
form feed, vertical tab. -/
def isWS (c : Char) : Bool :=
  c = ' ' || c = '\t' || c = '\n' || c = '\r' || c = '\x0c' || c = '\x0b'

/-- Python `str.lower()` on the program's alphabet (ASCII letters are
lowercased, Persian letters are caseless and unchanged). -/
def strLower (s : String) : String := ⟨s.data.map Char.toLower⟩

/-- Drop a maximal leading run of whitespace: the greedy `\s*`. -/
def dropWS : List Char → List Char
  | [] => []
  | c :: cs => if isWS c then dropWS cs else c :: cs

/-- Python `str.strip()`: remove leading and trailing whitespace. -/
def strip (s : List Char) : List Char :=
  ((dropWS ((dropWS s).reverse)).reverse)

/-- String form of `strip`. -/
def stripS (s : String) : String := ⟨strip s.data⟩

/-- Take characters up to (excluding) the first `'\n'` or the end: the
lazy `(.*?)(?=\n|$)` capture (`.` never matches a newline). -/
def takeToEOL : List Char → List Char
  | [] => []
  | c :: cs => if c = '\n' then [] else c :: takeToEOL cs

/-- Case-insensitive "does `pat` begin here?" (both sides lowercased,
as under `re.IGNORECASE`). -/
def isPrefixCI : List Char → List Char → Bool
  | [], _ => true
  | _ :: _, [] => false
  | p :: ps, c :: cs => (p.toLower == c.toLower) && isPrefixCI ps cs

/-- Leftmost case-insensitive occurrence of the literal `pat`:
returns the remainder of the text after the occurrence, or `none`.
This is `re.search` for a literal pattern under `re.IGNORECASE`. -/
def searchCI (pat : List Char) : List Char → Option (List Char)
  | [] => if isPrefixCI pat [] then some [] else none
  | c :: cs =>
    if isPrefixCI pat (c :: cs) then some ((c :: cs).drop pat.length)
    else searchCI pat cs

/-- Boolean form of `searchCI`: the text contains the literal,
case-insensitively. -/
def containsCI (pat text : List Char) : Bool := (searchCI pat text).isSome

/-- Python `"a|b".split("|")`. -/
def splitPipe : List Char → List (List Char)
  | [] => [[]]
  | c :: cs =>
    if c = '|' then [] :: splitPipe cs
    else
      match splitPipe cs with
      | [] => [[c]]
      | p :: ps => (c :: p) :: ps

/-- One key of `extract_value` (src/app.py:90-93): the pattern
`key:\s*(.*?)(?=\n|$)` searched case-insensitively, group(1) stripped.
The greedy `\s*` may cross newlines (Python `\s` matches `'\n'`); the
lazy capture then runs to the next newline or the end of the text. -/
def searchKey (key text : List Char) : Option (List Char) :=
  (searchCI (key ++ [':']) text).map fun rest =>
    strip (takeToEOL (dropWS rest))

/-- The loop of `extract_value` (src/app.py:89-94): first key whose
pattern matches wins; otherwise the sentinel `"---"`. -/
def extractLoop (text : List Char) : List (List Char) → List Char
  | [] => '-' :: '-' :: '-' :: []
  | k :: ks =>
    match searchKey (strip k) text with
    | some v => v
    | none => extractLoop text ks

/-- Python `extract_value(text, keys)` (src/app.py:88-94): `keys` is a
pipe-separated synonym string; each key is stripped and tried in order. -/
def extract_value (text keys : String) : String :=
  ⟨extractLoop text.data (splitPipe keys.data)⟩

/-- Python `translate_severity` (src/app.py:77-86): `severity_map.get(severity.lower(),
severity)`.  The dict has six distinct keys, so the lookup is the
ordered chain of equality tests below. -/
def translate_severity (severity : String) : String :=
  let l := strLower severity
  if l = "minor" then "جزئی"
  else if l = "moderate" then "متوسط"
  else if l = "severe" then "شدید"
  else if l = "جزئی" then "جزئی"
  else if l = "متوسط" then "متوسط"
  else if l = "شدید" then "شدید"
  else severity

/-- Python `estimate_cost` (src/app.py:96-102): `costs.get(severity.lower(), "---")`. -/
def estimate_cost (severity : String) : String :=
  let l := strLower severity
  if l = "minor" then "1-2 میلیون تومان"
  else if l = "moderate" then "3-5 میلیون تومان"
  else if l = "severe" then "6-10 میلیون تومان"
  else "---"

/-- Match a literal exactly (case-sensitively) at the head of the text,
returning the remainder. -/
def matchLit (lit s : List Char) : Option (List Char) :=
  if lit.isPrefixOf s then some (s.drop lit.length) else none

/-- Match a literal case-insensitively at the head of the text. -/
def matchLitCI (lit s : List Char) : Option (List Char) :=
  if isPrefixCI lit s then some (s.drop lit.length) else none

/-- Match a section header at the head of the text: the regex
`###\s*<num>\.\s*<w1>\s*<w2>\n` under `re.IGNORECASE`
(src/app.py:38 and 47).  Each `\s*` is greedy and, being followed by a
non-whitespace literal, never backtracks. -/
def matchHeaderAt (num : Char) (w1 w2 s : List Char) : Option (List Char) := do
  let s ← matchLitCI ['#', '#', '#'] s
  let s := dropWS s
  let s ← matchLitCI [num, '.'] s
  let s := dropWS s
  let s ← matchLitCI w1 s
  let s := dropWS s
  let s ← matchLitCI w2 s
  matchLitCI ['\n'] s

/-- Lazy capture `([\s\S]*?)(?=\n###|\Z)`: everything up to (excluding)
the first occurrence of `"\n###"`, or the whole remainder. -/
def captureUntil : List Char → List Char
  | [] => []
  | c :: cs =>
    if ('\n' :: '#' :: '#' :: '#' :: []).isPrefixOf (c :: cs) then []
    else c :: captureUntil cs

/-- Leftmost application of a header matcher over the text (Python
`re.search`), capturing the section body after a hit. -/
def findSection (hdr : List Char → Option (List Char)) : List Char → Option (List Char)
  | [] => (hdr []).map captureUntil
  | c :: cs =>
    match hdr (c :: cs) with
    | some rest => some (captureUntil rest)
    | none => findSection hdr cs

/-- The vehicle-section locator (src/app.py:38):
`###\s*1\.\s*Vehicle\s*Identification\n([\s\S]*?)(?=\n###|\Z)`, `re.IGNORECASE`. -/
def findVehicleSection (s : List Char) : Option (List Char) :=
  findSection (matchHeaderAt '1' "vehicle".data "identification".data) s

/-- The damage-section locator (src/app.py:47):
`###\s*2\.\s*Damage\s*Assessment\n([\s\S]*?)(?=\n###|\Z)`, `re.IGNORECASE`. -/
def findDamageSection (s : List Char) : Option (List Char) :=
  findSection (matchHeaderAt '2' "damage".data "assessment".data) s

/-- The severity alternation of the damage-item regex (src/app.py:49),
in source order, matched case-SENSITIVELY (that regex has no flag). -/
def sevAlts : List (List Char) :=
  ["minor".data, "moderate".data, "severe".data,
   "جزئی".data, "متوسط".data, "شدید".data]

/-- Match `(minor|moderate|severe|جزئی|متوسط|شدید)` at the head of the
text: Python tries the alternatives left to right. -/
def matchSev (s : List Char) : Option (List Char × List Char) :=
  (sevAlts.find? fun a => a.isPrefixOf s).map fun a => (a, s.drop a.length)

/-- After the `" ("` of a damage item: the lazy `(.*?)\) - <sev>` part.
The lazy group grows one (non-newline) character at a time; at each
size the whole tail `") - "` + severity alternation is attempted. -/
def matchAfterParen : List Char → Option (List Char × List Char × List Char)
  | [] =>
    ((matchLit (')' :: ' ' :: '-' :: ' ' :: []) []).bind matchSev).map
      fun p => ([], p.1, p.2)
  | c :: cs =>
    match ((matchLit (')' :: ' ' :: '-' :: ' ' :: []) (c :: cs)).bind matchSev) with
    | some (sev, rest) => some ([], sev, rest)
    | none =>
      if c = '\n' then none
      else (matchAfterParen cs).map fun p => (c :: p.1, p.2.1, p.2.2)

/-- After the `"- "` of a damage item: the lazy `(.*?) \(...` part,
with full backtracking into the rest of the pattern. -/
def matchAfterDash : List Char → Option (List Char × List Char × List Char × List Char)
  | [] =>
    ((matchLit (' ' :: '(' :: []) []).bind matchAfterParen).map
      fun p => ([], p.1, p.2.1, p.2.2)
  | c :: cs =>
    match ((matchLit (' ' :: '(' :: []) (c :: cs)).bind matchAfterParen) with
    | some (g2, sev, rest) => some ([], g2, sev, rest)
    | none =>
      if c = '\n' then none
      else (matchAfterDash cs).map fun p => (c :: p.1, p.2.1, p.2.2.1, p.2.2.2)

/-- One damage item `- (.*?) \((.*?)\) - (minor|moderate|severe|جزئی|متوسط|شدید)`
matched at the head of the text, yielding (part, type, severity, rest). -/
def matchItem (s : List Char) : Option (List Char × List Char × List Char × List Char) :=
  (matchLit ('-' :: ' ' :: []) s).bind matchAfterDash

/-- The scan of `re.findall` (src/app.py:49): leftmost matches, each
search resuming after the end of the previous match.  `fuel` only
bounds the recursion; every step strictly shortens the text, so
`fuel = length` never runs out early. -/
def findallGo : Nat → List Char → List (List Char × List Char × List Char)
  | 0, _ => []
  | _ + 1, [] => []
  | fuel + 1, c :: cs =>
    match matchItem (c :: cs) with
    | some (g1, g2, sev, rest) => (g1, g2, sev) :: findallGo fuel rest
    | none => findallGo fuel cs

/-- Python `re.findall(r"- (.*?) \((.*?)\) - (minor|...)", block)`. -/
def findallDamage (s : List Char) : List (List Char × List Char × List Char) :=
  findallGo s.length s

/-- One entry of the `damages` list (src/app.py:51-57). -/
structure Damage where
  part : String
  type : String
  severity : String
  action : String
  cost : String
deriving DecidableEq, Repr

/-- The dict appended for one matched damage triple (src/app.py:50-57). -/
def mkDamage (part dtype severity : String) : Damage :=
  { part := stripS part
    type := stripS dtype
    severity := translate_severity severity
    action :=
      if strLower severity ∈ (["severe", "شدید"] : List String)
      then "تعویض" else "تعمیر"
    cost := estimate_cost severity }

/-- The dict returned by `parse_analysis` on its normal path
(src/app.py:63-70).  `vehicle` is an association list in the insertion
order of the Python dict. -/
structure Report where
  vehicle : List (String × String)
  damages : List Damage
  total_cost : String
  repair_time : String
  safety_status : String
  content : String
deriving DecidableEq, Repr

/-- The two shapes `parse_analysis` can return: the full report of the
normal path, or the `{"content": content}` dict of the `except` branch
(src/app.py:72-74). -/
inductive ParseResult where
  | full : Report → ParseResult
  | degraded : String → ParseResult
deriving DecidableEq, Repr

/-- The `vehicle` value of a result (the `except` branch has none). -/
def vehicleOf : ParseResult → List (String × String)
  | .full r => r.vehicle
  | .degraded _ => []

/-- The `damages` value of a result (the `except` branch has none). -/
def damagesOf : ParseResult → List Damage
  | .full r => r.damages
  | .degraded _ => []

/-- The `safety_status` value of a result (the `except` branch has none). -/
def safetyOf : ParseResult → String
  | .full r => r.safety_status
  | .degraded _ => ""

/-- Python `parse_analysis(content)` (src/app.py:32-74).  Every step of the
`try` block is total in this model (regex matching cannot raise), so
the `except` branch — modelled by the `ParseResult.degraded`
constructor — is never taken. -/
def parse_analysis (content : String) : ParseResult :=
  let vehicle : List (String × String) :=
    match findVehicleSection content.data with
    | some info =>
      [("make", extract_value ⟨info⟩ "make|manufacturer"),
       ("model", extract_value ⟨info⟩ "model"),
       ("year", extract_value ⟨info⟩ "year"),
       ("plate", extract_value ⟨info⟩ "license plate|plate")]
    | none => []
  let damages : List Damage :=
    match findDamageSection content.data with
    | some block =>
      (findallDamage block).map fun x => mkDamage ⟨x.1⟩ ⟨x.2.1⟩ ⟨x.2.2⟩
    | none => []
  ParseResult.full
    { vehicle := vehicle
      damages := damages
      total_cost := extract_value content "total estimated repair cost|total cost"
      repair_time := extract_value content "estimated repair timeline|repair time"
      safety_status :=
        if containsCI "safe to drive: yes".data content.data
           || containsCI "safe: yes".data content.data
        then "ایمن" else "غیر ایمن"
      content := content }

/-- Scenario A input text from the specification (§8). -/
def scenarioA : String :=
  "### 1. Vehicle Identification\nMake: Toyota\nModel: Camry\nYear: 2019\nLicense Plate: ABC123\n### 2. Damage Assessment\n- Front Bumper (Cracked) - severe\n- Hood (Dented) - minor\nTotal Estimated Repair Cost: 5000\nEstimated Repair Timeline: 3 days\nSafe to drive: yes"

/-- A plain-prose input with no report structure (Scenario B shape). -/
def proseB : String := "The quick brown fox jumps over the lazy dog."

/-- A damage section whose two lines use the English and the Persian
word for the same severity. -/
def mixedSeverityInput : String :=
  "### 2. Damage Assessment\n- A (X) - severe\n- B (Y) - شدید"

end CarDamage

namespace CarDamage

set_option maxRecDepth 100000

/-- C1: on the Scenario A template text, `parse_analysis` returns exactly
vehicle {make Toyota, model Camry, year 2019, plate ABC123}, the two
damage records in order of appearance — (Front Bumper, Cracked, شدید,
تعویض, 6-10 میلیون تومان) then (Hood, Dented, جزئی, تعمیر,
1-2 میلیون تومان) — total_cost "5000", repair_time "3 days", and the
canonical safe status "ایمن". -/
theorem parse_scenarioA_roundtrip :
    parse_analysis scenarioA = ParseResult.full
      { vehicle := [("make", "Toyota"), ("model", "Camry"),
                    ("year", "2019"), ("plate", "ABC123")]
        damages := [⟨"Front Bumper", "Cracked", "شدید", "تعویض", "6-10 میلیون تومان"⟩,
                    ⟨"Hood", "Dented", "جزئی", "تعمیر", "1-2 میلیون تومان"⟩]
        total_cost := "5000"
        repair_time := "3 days"
        safety_status := "ایمن"
        content := scenarioA } := by decide

/-- C4 is false as stated: `estimate_cost` is not idempotent on the
recognized English tokens — applied to its own output on "minor" it
yields the sentinel, not the cost band again. -/
theorem estimate_cost_not_idempotent :
    estimate_cost (estimate_cost "minor") ≠ estimate_cost "minor" := by decide

/-- C4 (amended): `translate_severity` is idempotent on the recognized
English tokens and agrees with the §4.2 table; `estimate_cost` agrees
with the §4.3 table on a single application, but a second application
always yields the missing-sentinel "---". -/
theorem severity_tables_and_idempotence :
    (translate_severity (translate_severity "minor") = translate_severity "minor"
      ∧ translate_severity (translate_severity "moderate") = translate_severity "moderate"
      ∧ translate_severity (translate_severity "severe") = translate_severity "severe")
    ∧ (translate_severity "minor" = "جزئی"
      ∧ translate_severity "moderate" = "متوسط"
      ∧ translate_severity "severe" = "شدید")
    ∧ (estimate_cost "minor" = "1-2 میلیون تومان"
      ∧ estimate_cost "moderate" = "3-5 میلیون تومان"
      ∧ estimate_cost "severe" = "6-10 میلیون تومان")
    ∧ (estimate_cost (estimate_cost "minor") = "---"
      ∧ estimate_cost (estimate_cost "moderate") = "---"
      ∧ estimate_cost (estimate_cost "severe") = "---") := by decide

/-- C2 is false as stated: on `mixedSeverityInput` the two produced
records both store the normalized severity "شدید", yet their
`estimated_cost` fields differ ("6-10 میلیون تومان" from the English
token, the sentinel "---" from the Persian token). -/
theorem damage_cost_not_function_of_severity :
    ¬ (∀ d1 ∈ damagesOf (parse_analysis mixedSeverityInput),
       ∀ d2 ∈ damagesOf (parse_analysis mixedSeverityInput),
        d1.severity = d2.severity → d1.action = d2.action ∧ d1.cost = d2.cost) := by
  decide

/-- C3 is false as stated: on plain prose `parse_analysis` does not
return the raw-text-only degraded record; it returns the full-shape
record, whose `safety_status` field is populated with "غیر ایمن". -/
theorem parse_prose_not_raw_only :
    parse_analysis proseB ≠ ParseResult.degraded proseB
      ∧ safetyOf (parse_analysis proseB) = "غیر ایمن" := by decide

/-- Helper: when no key's `key:` pattern occurs in the text, the
extraction loop falls through to the sentinel. -/
theorem extractLoop_sentinel (text : List Char) (ks : List (List Char))
    (h : ∀ k ∈ ks, searchCI (strip k ++ [':']) text = none) :
    extractLoop text ks = '-' :: '-' :: '-' :: [] := by
  induction ks with
  | nil => rfl
  | cons k ks ih =>
    have hk := h k (by simp)
    simp only [extractLoop, searchKey, hk, Option.map_none]
    exact ih fun k hm => h k (by simp [hm])

/-- C5: when neither section header matches anywhere in the text, the
assembled report has an empty vehicle mapping and an empty damage list,
and the result is a full-shape record (the `except` branch — the only
way an error could surface — is not taken). -/
theorem parse_no_headers_empty (content : String)
    (hv : findVehicleSection content.data = none)
    (hd : findDamageSection content.data = none) :
    vehicleOf (parse_analysis content) = []
      ∧ damagesOf (parse_analysis content) = []
      ∧ ∃ r, parse_analysis content = ParseResult.full r := by
  simp only [parse_analysis, hv, hd]
  exact ⟨rfl, rfl, _, rfl⟩

/-- Witness for C5 at the concrete header-free text "hello world". -/
theorem parse_no_headers_empty_witness :
    vehicleOf (parse_analysis "hello world") = []
      ∧ damagesOf (parse_analysis "hello world") = []
      ∧ ∃ r, parse_analysis "hello world" = ParseResult.full r :=
  parse_no_headers_empty "hello world" (by decide) (by decide)

/-- C3 (amended): on text where neither section header matches, no
synonym of the two label sets occurs, and neither safety phrase occurs,
`parse_analysis` returns the full-shape record with empty vehicle
mapping, empty damages, sentinel cost and time, and the canonical
"unsafe" status — not a raw-text-only record; the raw text is retained
in the `content` field. -/
theorem parse_unstructured_full_defaults (content : String)
    (hv : findVehicleSection content.data = none)
    (hd : findDamageSection content.data = none)
    (ht : ∀ k ∈ splitPipe "total estimated repair cost|total cost".data,
      searchCI (strip k ++ [':']) content.data = none)
    (hr : ∀ k ∈ splitPipe "estimated repair timeline|repair time".data,
      searchCI (strip k ++ [':']) content.data = none)
    (hs1 : containsCI "safe to drive: yes".data content.data = false)
    (hs2 : containsCI "safe: yes".data content.data = false) :
    parse_analysis content = ParseResult.full
      { vehicle := [], damages := [], total_cost := "---",
        repair_time := "---", safety_status := "غیر ایمن",
        content := content } := by
  simp only [parse_analysis, hv, hd, extract_value,
    extractLoop_sentinel content.data _ ht,
    extractLoop_sentinel content.data _ hr, hs1, hs2,
    Bool.or_self, Bool.false_eq_true, if_false]

/-- Witness for C3 at a concrete structure-free prose input. -/
theorem parse_unstructured_full_defaults_witness :
    parse_analysis "It was a bright cold day in April." = ParseResult.full
      { vehicle := [], damages := [], total_cost := "---",
        repair_time := "---", safety_status := "غیر ایمن",
        content := "It was a bright cold day in April." } :=
  parse_unstructured_full_defaults "It was a bright cold day in April."
    (by decide) (by decide) (by decide) (by decide) (by decide) (by decide)

/-- C6: `translate_severity` is case-insensitive — a token whose
lowercase form is one of the six recognized tokens maps to the
corresponding localized canonical label — and every unrecognized token
is returned unchanged. -/
theorem translate_severity_cases (s : String) :
    (strLower s = "minor" → translate_severity s = "جزئی")
    ∧ (strLower s = "moderate" → translate_severity s = "متوسط")
    ∧ (strLower s = "severe" → translate_severity s = "شدید")
    ∧ (strLower s = "جزئی" → translate_severity s = "جزئی")
    ∧ (strLower s = "متوسط" → translate_severity s = "متوسط")
    ∧ (strLower s = "شدید" → translate_severity s = "شدید")
    ∧ (strLower s ∉ (["minor", "moderate", "severe",
        "جزئی", "متوسط", "شدید"] : List String) → translate_severity s = s) := by
  refine ⟨?_, ?_, ?_, ?_, ?_, ?_, ?_⟩ <;> intro h
  · simp [translate_severity, h]
  · simp [translate_severity, h]
  · simp [translate_severity, h]
  · simp [translate_severity, h]
  · simp [translate_severity, h]
  · simp [translate_severity, h]
  · simp only [List.mem_cons, List.not_mem_nil, or_false, not_or] at h
    obtain ⟨h1, h2, h3, h4, h5, h6⟩ := h
    simp [translate_severity, h1, h2, h3, h4, h5, h6]

/-- Witness for C6: a recognized mixed-case token and an unrecognized
token, instantiated through the theorem. -/
theorem translate_severity_cases_witness :
    translate_severity "SEVERE" = "شدید" ∧ translate_severity "Bent" = "Bent" :=
  ⟨(translate_severity_cases "SEVERE").2.2.1 (by decide),
   (translate_severity_cases "Bent").2.2.2.2.2.2 (by decide)⟩

/-- C7: `parse_analysis` produces the canonical safe label "ایمن"
exactly when the full text contains, case-insensitively, the phrase
"safe to drive: yes" or the phrase "safe: yes", and otherwise produces
the canonical unsafe label "غیر ایمن" — there is no third value. -/
theorem safety_status_binary (content : String) :
    (safetyOf (parse_analysis content) = "ایمن"
      ∨ safetyOf (parse_analysis content) = "غیر ایمن")
    ∧ (safetyOf (parse_analysis content) = "ایمن"
      ↔ (containsCI "safe to drive: yes".data content.data = true
        ∨ containsCI "safe: yes".data content.data = true)) := by
  simp only [parse_analysis, safetyOf]
  by_cases h1 : containsCI "safe to drive: yes".data content.data = true
  · simp [h1]
  · by_cases h2 : containsCI "safe: yes".data content.data = true
    · simp [h1, h2]
    · simp only [Bool.not_eq_true] at h1 h2
      simp [h1, h2]

/-- C8: a damage record built from one of the three Persian severity
tokens gets the correct action directly from the localized token
("تعویض" for "شدید", otherwise "تعمیر"), while its cost is the
sentinel "---" because `estimate_cost` only recognizes English keys. -/
theorem persian_severity_action_and_cost (p t s : String)
    (hs : s ∈ (["جزئی", "متوسط", "شدید"] : List String)) :
    (mkDamage p t s).action = (if s = "شدید" then "تعویض" else "تعمیر")
      ∧ (mkDamage p t s).cost = "---" := by
  simp only [List.mem_cons, List.not_mem_nil, or_false] at hs
  rcases hs with h | h | h <;> subst h <;>
    exact ⟨by simp [mkDamage, strLower], by simp [mkDamage, estimate_cost, strLower]⟩

/-- Witness for C8 at a concrete Persian-severity damage record. -/
theorem persian_severity_action_and_cost_witness :
    ((mkDamage "Door" "Scratched" "شدید").action
        = (if "شدید" = "شدید" then "تعویض" else "تعمیر"))
      ∧ (mkDamage "Door" "Scratched" "شدید").cost = "---" :=
  persian_severity_action_and_cost "Door" "Scratched" "شدید" (by decide)

/-- C9 is false as stated: on "Make:\nfoo" the label "Make:" matches
with an empty value on its own line, yet `extract_value` returns
"foo" — the greedy `\s*` after the colon crosses the newline — and not
the empty string. -/
theorem extract_value_empty_label_not_empty :
    extract_value "Make:\nfoo" "make" = "foo"
      ∧ extract_value "Make:\nfoo" "make" ≠ "" := by decide

/-- C9 (amended): `extract_value` returns the sentinel "---" when no
synonym's `key:` pattern occurs in the text; when the single key
matches and only whitespace follows the colon up to the end of the
text, the result is the empty string "".  (When non-whitespace text
follows on a later line, the whitespace skip crosses the newline and
that later content is returned instead — see the counterexample.) -/
theorem extract_value_sentinel_and_empty :
    (∀ text keys : String,
      (∀ k ∈ splitPipe keys.data, searchCI (strip k ++ [':']) text.data = none) →
      extract_value text keys = "---")
    ∧ (∀ (text keys : String) (k rest : List Char),
      splitPipe keys.data = [k] →
      searchCI (strip k ++ [':']) text.data = some rest →
      dropWS rest = [] →
      extract_value text keys = "") := by
  constructor
  · intro text keys h
    simp only [extract_value, extractLoop_sentinel text.data _ h]
  · intro text keys k rest hk hfind hws
    simp only [extract_value, hk, extractLoop, searchKey, hfind]
    show String.mk (strip (takeToEOL (dropWS rest))) = ""
    rw [hws]
    rfl

/-- Witness for C9: a text with no label at all yields the sentinel; a
label followed only by whitespace yields the empty string. -/
theorem extract_value_sentinel_and_empty_witness :
    extract_value "Lorem ipsum" "make|manufacturer" = "---"
      ∧ extract_value "Make: \n\t" "make" = "" :=
  ⟨extract_value_sentinel_and_empty.1 "Lorem ipsum" "make|manufacturer" (by decide),
   extract_value_sentinel_and_empty.2 "Make: \n\t" "make" "make".data
     (' ' :: '\n' :: '\t' :: []) (by decide) (by decide) (by decide)⟩

/-- C10: `translate_severity` is idempotent on every input string:
recognized tokens map to localized labels that are fixed points, and
unrecognized tokens are returned unchanged. -/
theorem translate_severity_idempotent (s : String) :
    translate_severity (translate_severity s) = translate_severity s := by
  have h : translate_severity s = s
      ∨ translate_severity s ∈ (["جزئی", "متوسط", "شدید"] : List String) := by
    simp only [translate_severity]
    split
    · simp
    · split
      · simp
      · split
        · simp
        · split
          · simp
          · split
            · simp
            · split
              · simp
              · simp
  rcases h with h | h
  · rw [h]; exact h
  · simp only [List.mem_cons, List.not_mem_nil, or_false] at h
    rcases h with h | h | h <;> rw [h] <;> decide

/-- Helper: a severity token matched by the alternation is one of its
six alternatives. -/
theorem matchSev_mem {s a r : List Char} (h : matchSev s = some (a, r)) :
    a ∈ sevAlts := by
  unfold matchSev at h
  cases hf : sevAlts.find? fun x => x.isPrefixOf s with
  | none => rw [hf] at h; simp at h
  | some b =>
    rw [hf] at h
    simp only [Option.map_some', Option.some.injEq, Prod.mk.injEq] at h
    exact h.1 ▸ List.mem_of_find?_eq_some hf

/-- Helper: the severity produced by the `\((.*?)\) - <sev>` tail is
one of the six alternatives. -/
theorem matchAfterParen_mem : ∀ (s : List Char) {g2 sv r : List Char},
    matchAfterParen s = some (g2, sv, r) → sv ∈ sevAlts := by
  intro s
  induction s with
  | nil =>
    intro g2 sv r h
    simp [matchAfterParen, matchLit, List.isPrefixOf] at h
  | cons c cs ih =>
    intro g2 sv r h
    rw [matchAfterParen] at h
    split at h
    · next sev rest heq =>
      obtain ⟨t, _, hsev⟩ := Option.bind_eq_some.mp heq
      obtain ⟨rfl, rfl, rfl⟩ : g2 = [] ∧ sev = sv ∧ rest = r := by
        simpa using h
      exact matchSev_mem hsev
    · split at h
      · simp at h
      · obtain ⟨⟨a, b, d⟩, hp, he⟩ := Option.map_eq_some'.mp h
        obtain ⟨-, rfl, -⟩ : c :: a = g2 ∧ b = sv ∧ d = r := by
          simpa using he
        exact ih hp

/-- Helper: the severity produced by the `(.*?) \(...` tail is one of
the six alternatives. -/
theorem matchAfterDash_mem : ∀ (s : List Char) {g1 g2 sv r : List Char},
    matchAfterDash s = some (g1, g2, sv, r) → sv ∈ sevAlts := by
  intro s
  induction s with
  | nil =>
    intro g1 g2 sv r h
    simp [matchAfterDash, matchLit, List.isPrefixOf] at h
  | cons c cs ih =>
    intro g1 g2 sv r h
    rw [matchAfterDash] at h
    split at h
    · next g2h sev rest heq =>
      obtain ⟨t, _, hpar⟩ := Option.bind_eq_some.mp heq
      obtain ⟨rfl, rfl, rfl, rfl⟩ :
          g1 = [] ∧ g2h = g2 ∧ sev = sv ∧ rest = r := by
        simpa using h
      exact matchAfterParen_mem t hpar
    · split at h
      · simp at h
      · obtain ⟨⟨a, b, d, e⟩, hp, he⟩ := Option.map_eq_some'.mp h
        obtain ⟨-, -, rfl, -⟩ :
            c :: a = g1 ∧ b = g2 ∧ d = sv ∧ e = r := by
          simpa using he
        exact ih hp

/-- Helper: every triple in the `findall` scan carries a severity from
the six-token alternation. -/
theorem findallGo_mem : ∀ (fuel : Nat) (s : List Char) {p t sv : List Char},
    (p, t, sv) ∈ findallGo fuel s → sv ∈ sevAlts := by
  intro fuel
  induction fuel with
  | zero => intro s p t sv h; simp [findallGo] at h
  | succ fuel ih =>
    intro s p t sv h
    cases s with
    | nil => simp [findallGo] at h
    | cons c cs =>
      rw [findallGo] at h
      split at h
      · next g1 g2 sev rest heq =>
        rcases List.mem_cons.mp h with he | hm
        · obtain ⟨rfl, rfl, rfl⟩ : p = g1 ∧ t = g2 ∧ sv = sev := by
            simpa using he
          obtain ⟨u, _, hdash⟩ := Option.bind_eq_some.mp heq
          exact matchAfterDash_mem u hdash
        · exact ih rest hm
      · exact ih cs h

/-- Helper: every record in the `damages` of an assembled report is
built by `mkDamage` from a matched triple whose severity token is one
of the six alternatives. -/
theorem damages_mem_structure (content : String) {d : Damage}
    (hd : d ∈ damagesOf (parse_analysis content)) :
    ∃ p t sv, sv ∈ sevAlts ∧ d = mkDamage ⟨p⟩ ⟨t⟩ ⟨sv⟩ := by
  simp only [parse_analysis, damagesOf] at hd
  cases hb : findDamageSection content.data with
  | none => rw [hb] at hd; simp at hd
  | some block =>
    rw [hb] at hd
    simp only [findallDamage, List.mem_map] at hd
    obtain ⟨⟨p, t, sv⟩, hmem, rfl⟩ := hd
    exact ⟨p, t, sv, findallGo_mem _ _ hmem, rfl⟩

/-- C2 (amended): within one assembled report, the `action` field is a
pure function of the stored normalized severity: any two damage
records with equal `severity` have equal `action`.  (`estimated_cost`
is instead a pure function of the original matched token, and records
with equal normalized severity can differ in cost — see the
counterexample.) -/
theorem damage_action_function_of_severity (content : String) (d1 d2 : Damage)
    (h1 : d1 ∈ damagesOf (parse_analysis content))
    (h2 : d2 ∈ damagesOf (parse_analysis content))
    (hsev : d1.severity = d2.severity) : d1.action = d2.action := by
  obtain ⟨p1, t1, s1, hs1, rfl⟩ := damages_mem_structure content h1
  obtain ⟨p2, t2, s2, hs2, rfl⟩ := damages_mem_structure content h2
  simp only [sevAlts, List.mem_cons, List.not_mem_nil, or_false] at hs1 hs2
  simp only [mkDamage] at hsev ⊢
  rcases hs1 with h | h | h | h | h | h <;> subst h <;>
    rcases hs2 with h | h | h | h | h | h <;> subst h <;>
    revert hsev <;> decide

/-- Witness for C2: the two records of `mixedSeverityInput` share the
stored severity "شدید" (one from "severe", one from "شدید") and the
theorem yields their equal actions. -/
theorem damage_action_function_of_severity_witness :
    (mkDamage "A" "X" "severe").action = (mkDamage "B" "Y" "شدید").action :=
  damage_action_function_of_severity mixedSeverityInput
    (mkDamage "A" "X" "severe") (mkDamage "B" "Y" "شدید")
    (by decide) (by decide) (by decide)

end CarDamage
